import Mathlib

/-!
Verification of mquery core behaviors against a shallow Lean embedding.

The definitions below are translated from the Go sources:
  corpus/edit/edit.go      (corpus splitting, subcorpus descriptor files)
  the mango wrapper        (concordance error mapping)
  openapi/handler.go       (FreqDistrib, FreqDistribParallel handlers)
  the query handlers       (TextTypes, TextTypesParallel)
  the corpus edit handlers (SplitCorpus, MultiSample)
  the fcoll ingester       (CounterTable.Add)

Machine integers are modelled as Nat or Int; fallible operations return
Option or Except; the file system and the job broker are modelled by
explicit parameters describing their observable state.  A few
collaborator types (results.FreqDistrib and its merge) are not part of
the sources and are modelled from the specification; their doc comments
say so explicitly.

The file is laid out as definitions first, then theorems.
-/

namespace Mquery

/-! Section: Definitions: corpus splitting (corpus/edit/edit.go) -/

/-- The constant maxSplitChunkSize from corpus/edit/edit.go. -/
def maxSplitChunkSize : Nat := 100000000

/-- Number of chunks computed by splitCorpus:
int(math.Ceil(float64(size) / float64(maxSplitChunkSize))).
For every size below 2^53 the float64 conversion and division are exact,
so the expression equals the exact integer ceiling, embedded here as
ceiling division on Nat. -/
def numSplitChunks (size : Nat) : Nat :=
  (size + maxSplitChunkSize - 1) / maxSplitChunkSize

/-- The half-open range recorded in one .subc descriptor file. -/
structure SubcRange where
  fromIdx : Nat
  toIdx : Nat
deriving Repr, DecidableEq

/-- The sequence of descriptor ranges written by the loop in splitCorpus:
for i in [0, numChunks) it calls
createSubcorpus(path_i, i*maxSplitChunkSize, (i+1)*maxSplitChunkSize). -/
def splitCorpus (size : Nat) : List SubcRange :=
  (List.range (numSplitChunks size)).map
    fun i => { fromIdx := i * maxSplitChunkSize, toIdx := (i + 1) * maxSplitChunkSize }

/-- The chunk-structure property claimed for splitCorpus: exactly
ceil(size / maxSplitChunkSize) descriptors (characterized by the two
ceiling inequalities together with the explicit quotient), descriptor i
holding [i*C, (i+1)*C), hence contiguous, in increasing offset order,
non-empty, covering [0, size), with the last chunk ending at
numChunks*C, never clamped to size. -/
def splitChunksSpec (size : Nat) : Prop :=
  let chunks := splitCorpus size
  let n := chunks.length
  n = (size + maxSplitChunkSize - 1) / maxSplitChunkSize ∧
  maxSplitChunkSize * (n - 1) < size ∧
  size ≤ maxSplitChunkSize * n ∧
  (∀ i (h : i < n), chunks.get ⟨i, h⟩ =
    { fromIdx := i * maxSplitChunkSize, toIdx := (i + 1) * maxSplitChunkSize }) ∧
  (∀ i (h : i < n), (chunks.get ⟨i, h⟩).fromIdx < (chunks.get ⟨i, h⟩).toIdx) ∧
  (∀ i (h : i + 1 < n),
    (chunks.get ⟨i, Nat.lt_of_succ_lt h⟩).toIdx = (chunks.get ⟨i + 1, h⟩).fromIdx) ∧
  (∀ pos, pos < size → ∃ i, ∃ h : i < n,
    (chunks.get ⟨i, h⟩).fromIdx ≤ pos ∧ pos < (chunks.get ⟨i, h⟩).toIdx) ∧
  (∀ h : n - 1 < n, (chunks.get ⟨n - 1, h⟩).toIdx = maxSplitChunkSize * n)

/-! Section: Definitions: subcorpus descriptor files (createSubcorpus) -/

/-- Little-endian byte string of a value, n bytes, least significant first.
This is what binary.LittleEndian.PutUint64 / AppendUint64 produce for n = 8. -/
def leBytes : Nat → Nat → List Nat
  | 0, _ => []
  | n + 1, v => v % 256 :: leBytes n (v / 256)

/-- Value denoted by a little-endian byte string. -/
def leDecode : List Nat → Nat
  | [] => 0
  | b :: bs => b + 256 * leDecode bs

/-- The byte content written by createSubcorpus(path, fromIdx, toIdx):
an 8-byte little-endian uint64 for fromIdx followed by one for toIdx.
The Go int64 arguments pass through uint64(fromIdx), i.e. reduction
modulo 2^64, modelled with Int.emod. The file is opened with
O_WRONLY|O_CREATE and these 16 bytes are written at offset 0; the model
describes the content of a freshly created descriptor file. -/
def createSubcorpusBytes (fromIdx toIdx : Int) : List Nat :=
  leBytes 8 (fromIdx % (2 : Int) ^ 64).toNat ++ leBytes 8 (toIdx % (2 : Int) ^ 64).toNat

/-! Section: Definitions: concordance error mapping (mango wrapper) -/

/-- The fields of the C answer struct consumed by the error-handling and
result-building code of GetConcordance / GetConcordanceWithCollPhrase:
an optional error string, the accompanying numeric error code, the sizes
and the raw lines. -/
structure ConcRawAnswer where
  err : Option String
  errorCode : Int
  concSize : Int
  corpusSize : Int
  lines : List String
deriving Repr, DecidableEq

/-- The errors GetConcordance can produce: the sentinel
ErrRowsRangeOutOfConc, or a generic error wrapping the engine error
string (fmt.Errorf of C.GoString(ans.err)). -/
inductive ConcFailure where
  | rowsRangeOutOfConc
  | generic (msg : String)
deriving Repr, DecidableEq

/-- The successful value assembled from the answer (GoConcordance).
GetConcordanceWithCollPhrase does not set CorpusSize, so the two
embeddings differ in that field. -/
structure GoConcordance where
  Lines : List String
  ConcSize : Int
  CorpusSize : Int
deriving Repr, DecidableEq

/-- GetConcordance, from the point the engine answer is available:
if ans.err is non-nil, return ErrRowsRangeOutOfConc when ans.errorCode
is 1 and otherwise a generic error built from the error string; on
success collect the non-empty lines. -/
def GetConcordance (ans : ConcRawAnswer) : Except ConcFailure GoConcordance :=
  match ans.err with
  | some msg =>
    if ans.errorCode = 1 then .error .rowsRangeOutOfConc
    else .error (.generic msg)
  | none =>
    .ok { Lines := ans.lines.filter (fun s => s.length > 0)
          ConcSize := ans.concSize
          CorpusSize := ans.corpusSize }

/-- GetConcordanceWithCollPhrase, same error mapping; its GoConcordance
leaves CorpusSize at the zero value. -/
def GetConcordanceWithCollPhrase (ans : ConcRawAnswer) : Except ConcFailure GoConcordance :=
  match ans.err with
  | some msg =>
    if ans.errorCode = 1 then .error .rowsRangeOutOfConc
    else .error (.generic msg)
  | none =>
    .ok { Lines := ans.lines.filter (fun s => s.length > 0)
          ConcSize := ans.concSize
          CorpusSize := 0 }

/-- The error-mapping property claimed for both concordance calls: a
non-nil engine error with code 1 maps to the sentinel
rowsRangeOutOfConc, and any other non-nil engine error maps to the
generic error carrying the engine error string. -/
def concErrMappingSpec (ans : ConcRawAnswer) (msg : String) : Prop :=
  (ans.errorCode = 1 →
    GetConcordance ans = .error .rowsRangeOutOfConc ∧
    GetConcordanceWithCollPhrase ans = .error .rowsRangeOutOfConc) ∧
  (ans.errorCode ≠ 1 →
    GetConcordance ans = .error (.generic msg) ∧
    GetConcordanceWithCollPhrase ans = .error (.generic msg))

/-! Section: Definitions: CounterTable (fcoll ingester) -/

/-- CTItem, field for field as in the Go source. -/
structure CTItem where
  Lemma : String
  PLemma : String
  Deprel : String
  Upos : String
  PUpos : String
  Freq : Int
deriving Repr, DecidableEq

/-- CounterTable is a Go map from the string key to a CTItem; the map is
modelled as an association list with unique keys observed through
findEntry, and in-place mutation of the pointed-to item as functional
update through setEntry. -/
abbrev CounterTable := List (String × CTItem)

/-- mkKey: fmt.Sprintf with the five fields in the order
lemma, upos, deprel, pLemma, pUpos, joined by colons. -/
def mkKey (lem upos pLemma pUpos deprel : String) : String :=
  lem ++ ":" ++ upos ++ ":" ++ deprel ++ ":" ++ pLemma ++ ":" ++ pUpos

/-- Go map lookup table[key]. -/
def CounterTable.findEntry : CounterTable → String → Option CTItem
  | [], _ => none
  | (k, it) :: rest, key => if k = key then some it else findEntry rest key

/-- Go map store table[key] = item (replacing any previous binding). -/
def CounterTable.setEntry : CounterTable → String → CTItem → CounterTable
  | [], key, item => [(key, item)]
  | (k, it) :: rest, key, item =>
    if k = key then (key, item) :: rest else (k, it) :: setEntry rest key item

/-- CounterTable.Add: look the tuple key up; when absent insert a fresh
CTItem carrying the attribute fields (Freq zero), then increment the
entry Freq by val. -/
def CounterTable.Add
    (table : CounterTable) (lem upos pLemma pUpos deprel : String) (val : Int) :
    CounterTable :=
  let key := mkKey lem upos pLemma pUpos deprel
  match table.findEntry key with
  | none =>
    table.setEntry key
      { Lemma := lem, Upos := upos, PLemma := pLemma, PUpos := pUpos,
        Deprel := deprel, Freq := val }
  | some it => table.setEntry key { it with Freq := it.Freq + val }

/-- The behavior of Add on the level of looked-up keys: a fresh entry is
created with the tuple fields and Freq = val; an existing entry has only
its Freq incremented; every other key is untouched; two Adds on the same
tuple commute and their values sum. -/
def addSpec (table : CounterTable) (lem upos pLemma pUpos deprel : String) (v : Int) : Prop :=
  let key := mkKey lem upos pLemma pUpos deprel
  let t2 := table.Add lem upos pLemma pUpos deprel v
  (table.findEntry key = none →
    t2.findEntry key = some
      { Lemma := lem, Upos := upos, PLemma := pLemma, PUpos := pUpos,
        Deprel := deprel, Freq := v }) ∧
  (∀ it, table.findEntry key = some it →
    t2.findEntry key = some { it with Freq := it.Freq + v }) ∧
  (∀ k, k ≠ key → t2.findEntry k = table.findEntry k) ∧
  (∀ w, (t2.Add lem upos pLemma pUpos deprel w)
      = ((table.Add lem upos pLemma pUpos deprel w).Add lem upos pLemma pUpos deprel v)) ∧
  (∀ w, table.findEntry key = none →
    (t2.Add lem upos pLemma pUpos deprel w).findEntry key = some
      { Lemma := lem, Upos := upos, PLemma := pLemma, PUpos := pUpos,
        Deprel := deprel, Freq := v + w })

/-! Section: Definitions: frequency distribution results and merging -/

/-- One item of a frequency or text-type distribution result.
Modelled from the spec: results.FreqDistribItem is not under the
sources; the spec data model gives items as (word, freq, norm). -/
structure FreqDistribItem where
  Word : String
  Freq : Int
  Norm : Int
deriving Repr, DecidableEq

/-- Modelled from the spec: results.FreqDistrib is not under the
sources; the spec data model gives {items, concSize, corpusSize,
subcSize}. -/
structure FreqDistrib where
  ConcSize : Int
  CorpusSize : Int
  SubcSize : Int
  Freqs : List FreqDistribItem
deriving Repr, DecidableEq

/-- The Go zero value of results.FreqDistrib, which is what the
deserialization call leaves behind when it reports an error. -/
def FreqDistrib.zero : FreqDistrib :=
  { ConcSize := 0, CorpusSize := 0, SubcSize := 0, Freqs := [] }

/-- Merge one incoming item into an item list: on a word match the freq
and norm are summed, otherwise the item is appended.
Modelled from the spec: the item-level merge rule is union by key (the
word, case-sensitive exact match), summing freq and norm on collision. -/
def mergeItem (items : List FreqDistribItem) (x : FreqDistribItem) : List FreqDistribItem :=
  if items.any (fun it => it.Word == x.Word) then
    items.map (fun it =>
      if it.Word == x.Word then { it with Freq := it.Freq + x.Freq, Norm := it.Norm + x.Norm }
      else it)
  else items ++ [x]

/-- Modelled from the spec: results.FreqDistrib.MergeWith is not under
the sources. Following the spec merge rules: concSize (and the likewise
additive subcSize) are summed; corpusSize is shard-local metadata,
surfaced as-is from the last-merged shard rather than summed (the spec
allows last-merged or first, and notes the upstream behavior is the
last-seen shard); items merge by union on the word key, summing freq
and norm on collision. -/
def FreqDistrib.MergeWith (a b : FreqDistrib) : FreqDistrib :=
  { ConcSize := a.ConcSize + b.ConcSize
    CorpusSize := b.CorpusSize
    SubcSize := a.SubcSize + b.SubcSize
    Freqs := b.Freqs.foldl mergeItem a.Freqs }

/-- The body of the per-shard goroutine in FreqDistribParallel and
TextTypesParallel once its future resolves: deserialize the envelope;
on a deserialization or worker error the error is only logged and the
zero-valued result remains; the (possibly zero) result is then merged
into the shared accumulator under the mutex. A shard outcome of none
stands for a decode or worker error. -/
def gatherStep (acc : FreqDistrib) (shard : Option FreqDistrib) : FreqDistrib :=
  match shard with
  | some r => acc.MergeWith r
  | none => acc.MergeWith FreqDistrib.zero

/-! Section: Definitions: post-processing (sort and truncate in TextTypesParallel) -/

/-- The final truncation step of TextTypesParallel:
cut := maxItems; if maxItems == 0 then cut = 100 (the default cap); then
result.Freqs = result.Freqs[:cut]. Go reslicing past the slice length
panics when cut exceeds the capacity and otherwise exposes stale
elements beyond the length; in both cases it is not the identity on the
logical list, and for the lists this handler builds (a fresh slice grown
by appends) cut > length does panic, so the embedding returns none in
that case. -/
def truncateStep (freqs : List FreqDistribItem) (maxItems : Nat) : Option (List FreqDistribItem) :=
  let cut := if maxItems = 0 then 100 else maxItems
  if cut ≤ freqs.length then some (freqs.take cut) else none

/-- The comparison underlying sort.SliceStable in TextTypesParallel:
the less function is Freqs[i].Freq > Freqs[j].Freq, so an element may
stay before another exactly when the Freq of the second does not exceed
the Freq of the first. -/
def leFreqDesc (a b : FreqDistribItem) : Bool := decide (b.Freq ≤ a.Freq)

/-- sort.SliceStable on the merged items, modelled as the stable merge
sort with the descending-frequency comparison. -/
def sortStep (freqs : List FreqDistribItem) : List FreqDistribItem :=
  freqs.mergeSort leFreqDesc

/-- The complete post-processing tail of TextTypesParallel: stable sort
descending by Freq, then the truncation step. -/
def sortAndTruncate (freqs : List FreqDistribItem) (maxItems : Nat) :
    Option (List FreqDistribItem) :=
  truncateStep (sortStep freqs) maxItems

/-- The post-processing property: the sorted list is descending in
Freq, is a permutation of the input, keeps the relative order of
equal-frequency items, and - whenever the requested cap is positive and
does not exceed the number of items - the truncation returns exactly the
top maxItems entries. -/
def sortTruncSpec (l : List FreqDistribItem) (m : Nat) : Prop :=
  List.Pairwise (fun a b => b.Freq ≤ a.Freq) (sortStep l) ∧
  List.Perm (sortStep l) l ∧
  (∀ f : Int, (sortStep l).filter (fun it => it.Freq == f) =
    l.filter (fun it => it.Freq == f)) ∧
  (0 < m → m ≤ l.length → sortAndTruncate l m = some ((sortStep l).take m))

/-! Section: Definitions: the completion barrier of the parallel handlers -/

/-- The completion-barrier bookkeeping of FreqDistribParallel and
TextTypesParallel. The handler calls wg.Add(N) for the N shards; for
each shard it publishes the job; when publishing fails the error branch
only logs and no goroutine is spawned, so wg.Done() is never executed
for that shard; the goroutine of every successfully published shard executes
wg.Done() exactly once (also on decode failure). This is the WaitGroup
counter after every spawned goroutine has finished. -/
def finalBarrierCount (publishOk : List Bool) : Nat :=
  publishOk.length - publishOk.count true

/-- wg.Wait() returns exactly when the counter reaches zero. -/
def wgWaitReturns (publishOk : List Bool) : Prop :=
  finalBarrierCount publishOk = 0

/-! Section: Definitions: HTTP handlers (validation and dispatch ordering) -/

/-- Digit-string value, or none when empty or not all digits. -/
def digitsToNat (cs : List Char) : Option Nat :=
  if cs = [] then none
  else if cs.all (fun c => c.isDigit) then
    some (cs.foldl (fun a c => a * 10 + (c.toNat - 48)) 0)
  else none

/-- strconv.Atoi: an optional sign followed by at least one digit and
nothing else, rejecting values outside the int64 range. -/
def goAtoi (s : String) : Option Int :=
  match s.toList with
  | '+' :: rest =>
    (digitsToNat rest).bind (fun n =>
      if n ≤ 2 ^ 63 - 1 then some (n : Int) else none)
  | '-' :: rest =>
    (digitsToNat rest).bind (fun n =>
      if n ≤ 2 ^ 63 then some (-(n : Int)) else none)
  | cs =>
    (digitsToNat cs).bind (fun n =>
      if n ≤ 2 ^ 63 - 1 then some (n : Int) else none)

/-- The response statuses relevant to the handlers under study. -/
inductive RespStatus where
  | ok
  | unprocessableEntity
  | internalServerError
deriving Repr, DecidableEq

/-- What a handler invocation did: the response status written and the
number of jobs it attempted to publish to the queue adapter. -/
structure HandlerCall where
  status : RespStatus
  jobsPublished : Nat
deriving Repr, DecidableEq

/-- The FreqDistrib handler: when the flimit query parameter is present
it is parsed with Atoi, and a parse error is answered with
StatusUnprocessableEntity before anything is marshalled or published;
otherwise one job is published (publishOk says whether the broker
accepted it; the worker wait and result decoding, irrelevant to the
properties studied here, are condensed into a success response). -/
def FreqDistribHandler (flimitParam : Option String) (publishOk : Bool) : HandlerCall :=
  match flimitParam with
  | some s =>
    match goAtoi s with
    | none => { status := .unprocessableEntity, jobsPublished := 0 }
    | some _ =>
      if publishOk then { status := .ok, jobsPublished := 1 }
      else { status := .internalServerError, jobsPublished := 1 }
  | none =>
    if publishOk then { status := .ok, jobsPublished := 1 }
    else { status := .internalServerError, jobsPublished := 1 }

/-- The TextTypes handler follows exactly the FreqDistrib shape for the
flimit parameter: parse error answers 422 before publishing. -/
def TextTypesHandler (flimitParam : Option String) (publishOk : Bool) : HandlerCall :=
  match flimitParam with
  | some s =>
    match goAtoi s with
    | none => { status := .unprocessableEntity, jobsPublished := 0 }
    | some _ =>
      if publishOk then { status := .ok, jobsPublished := 1 }
      else { status := .internalServerError, jobsPublished := 1 }
  | none =>
    if publishOk then { status := .ok, jobsPublished := 1 }
    else { status := .internalServerError, jobsPublished := 1 }

/-- TextTypesParallel after the flimit check: the maxItems parameter is
parsed next, a parse error answering 422 with nothing published; then
the scatter loop attempts one publication per subcorpus. -/
def ttpAfterFlimit (maxItemsParam : Option String) (subcorpora : List String) : HandlerCall :=
  match maxItemsParam with
  | some s =>
    match goAtoi s with
    | none => { status := .unprocessableEntity, jobsPublished := 0 }
    | some _ => { status := .ok, jobsPublished := subcorpora.length }
  | none => { status := .ok, jobsPublished := subcorpora.length }

/-- The TextTypesParallel handler: it first opens the split corpus
(openResult, none standing for a failed open, which answers
StatusInternalServerError), and only then validates flimit and
maxItems; each parse error answers 422 before any publication. The
gather and post-processing tail is condensed into the success
response. -/
def TextTypesParallelHandler (openResult : Option (List String))
    (flimitParam maxItemsParam : Option String) : HandlerCall :=
  match openResult with
  | none => { status := .internalServerError, jobsPublished := 0 }
  | some subcorpora =>
    match flimitParam with
    | some s =>
      match goAtoi s with
      | none => { status := .unprocessableEntity, jobsPublished := 0 }
      | some _ => ttpAfterFlimit maxItemsParam subcorpora
    | none => ttpAfterFlimit maxItemsParam subcorpora

/-- What actually holds about an unparseable numeric limit parameter:
the single-shard handlers answer 422 with nothing published; the
parallel handler never publishes anything for such a request, and
answers 422 whenever the split corpus opened successfully (the open
precedes parameter validation). -/
def badLimitSpec (s : String) : Prop :=
  (∀ pub, FreqDistribHandler (some s) pub =
    { status := .unprocessableEntity, jobsPublished := 0 }) ∧
  (∀ pub, TextTypesHandler (some s) pub =
    { status := .unprocessableEntity, jobsPublished := 0 }) ∧
  (∀ subs maxP, TextTypesParallelHandler (some subs) (some s) maxP =
    { status := .unprocessableEntity, jobsPublished := 0 }) ∧
  (∀ subs, TextTypesParallelHandler (some subs) none (some s) =
    { status := .unprocessableEntity, jobsPublished := 0 }) ∧
  (∀ subs t v, goAtoi t = some v →
    TextTypesParallelHandler (some subs) (some t) (some s) =
      { status := .unprocessableEntity, jobsPublished := 0 }) ∧
  (∀ openR maxP, (TextTypesParallelHandler openR (some s) maxP).jobsPublished = 0) ∧
  (∀ openR flimP, (TextTypesParallelHandler openR flimP (some s)).jobsPublished = 0)

/-! Section: Definitions: shard-set creation guard (SplitCorpus, MultiSample) -/

/-- The observable state of a corpus shard directory: whether the
directory exists and how many entries it holds. -/
structure ShardDirState where
  isDir : Bool
  numEntries : Nat
deriving Repr, DecidableEq

/-- splitCorpusExists (and the analogous multisample existence check):
the directory exists and contains at least one entry. -/
def corpusShardSetExists (st : ShardDirState) : Bool :=
  st.isDir && decide (0 < st.numEntries)

/-- Status of a shard-set creation request. -/
inductive CreateStatus where
  | conflict
  | ok
deriving Repr, DecidableEq

/-- What a creation handler did: the response status, how many
descriptor files it wrote, and how many jobs it published. -/
structure CreateOutcome where
  status : CreateStatus
  descriptorsWritten : Nat
  jobsPublished : Nat
deriving Repr, DecidableEq

/-- The SplitCorpus handler: the existence check runs first and an
existing non-empty shard directory is answered with StatusConflict
before anything is created or dispatched; otherwise the split is
created (numSplitChunks descriptors) and one collocation-data job per
subcorpus is published. -/
def SplitCorpusAction (st : ShardDirState) (size : Nat) : CreateOutcome :=
  if corpusShardSetExists st then
    { status := .conflict, descriptorsWritten := 0, jobsPublished := 0 }
  else
    { status := .ok
      descriptorsWritten := numSplitChunks size
      jobsPublished := numSplitChunks size }

/-- The MultiSample handler, same guard ordering. The creation itself
(MultisampleCorpus) is modelled from the spec - it draws numSamples
random ranges and writes one descriptor per sample - since only the
count of created descriptors matters to the conflict guard. -/
def MultiSampleAction (st : ShardDirState) (numSamples : Nat) : CreateOutcome :=
  if corpusShardSetExists st then
    { status := .conflict, descriptorsWritten := 0, jobsPublished := 0 }
  else
    { status := .ok, descriptorsWritten := numSamples, jobsPublished := numSamples }

/-- The conflict-guard property: with an existing non-empty shard
directory both creation handlers answer conflict, write no descriptor
file (hence overwrite none) and publish nothing. -/
def conflictGuardSpec (st : ShardDirState) : Prop :=
  (∀ size, SplitCorpusAction st size =
    { status := .conflict, descriptorsWritten := 0, jobsPublished := 0 }) ∧
  (∀ ns, MultiSampleAction st ns =
    { status := .conflict, descriptorsWritten := 0, jobsPublished := 0 })

/-! Section: Theorems -/

theorem splitCorpus_get (size : Nat) (i : Nat) (h : i < (splitCorpus size).length) :
    (splitCorpus size).get ⟨i, h⟩ =
      { fromIdx := i * maxSplitChunkSize, toIdx := (i + 1) * maxSplitChunkSize } := by
  simp [splitCorpus]

theorem splitCorpus_length (size : Nat) :
    (splitCorpus size).length = numSplitChunks size := by
  simp [splitCorpus]

/-- C3: for every corpus size S > 0 splitCorpus creates exactly
ceil(S / maxSplitChunkSize) descriptors; descriptor i encodes the range
[i*C, (i+1)*C); the ranges are contiguous, non-overlapping, ordered by
offset, together cover [0, S), and the upper bound of the last chunk is
numChunks*C, possibly exceeding S and never clamped. -/
theorem C3_splitCorpus_chunks (size : Nat) (hS : 0 < size) : splitChunksSpec size := by
  have hC : 0 < maxSplitChunkSize := by decide
  have hlen : (splitCorpus size).length = numSplitChunks size := splitCorpus_length size
  have hnum : numSplitChunks size = (size + maxSplitChunkSize - 1) / maxSplitChunkSize := rfl
  refine ⟨by rw [hlen, hnum], ?_, ?_, ?_, ?_, ?_, ?_, ?_⟩
  · -- maxSplitChunkSize * (n - 1) < size
    rw [hlen, hnum]
    have h1 := Nat.div_add_mod (size + maxSplitChunkSize - 1) maxSplitChunkSize
    have h2 := Nat.mod_lt (size + maxSplitChunkSize - 1) hC
    simp only [maxSplitChunkSize] at *
    omega
  · -- size ≤ maxSplitChunkSize * n
    rw [hlen, hnum]
    have h1 := Nat.div_add_mod (size + maxSplitChunkSize - 1) maxSplitChunkSize
    have h2 := Nat.mod_lt (size + maxSplitChunkSize - 1) hC
    simp only [maxSplitChunkSize] at *
    omega
  · exact fun i h => splitCorpus_get size i h
  · intro i h
    rw [splitCorpus_get size i h]
    simp only [maxSplitChunkSize]
    omega
  · intro i h
    rw [splitCorpus_get size i (Nat.lt_of_succ_lt h), splitCorpus_get size (i + 1) h]
  · intro pos hpos
    have hcov : size ≤ maxSplitChunkSize * numSplitChunks size := by
      rw [hnum]
      have h1 := Nat.div_add_mod (size + maxSplitChunkSize - 1) maxSplitChunkSize
      have h2 := Nat.mod_lt (size + maxSplitChunkSize - 1) hC
      simp only [maxSplitChunkSize] at *
      omega
    refine ⟨pos / maxSplitChunkSize, ?_, ?_⟩
    · rw [hlen]
      have h1 := Nat.div_add_mod pos maxSplitChunkSize
      have h2 := Nat.mod_lt pos hC
      simp only [maxSplitChunkSize] at *
      omega
    · rw [splitCorpus_get]
      have h1 := Nat.div_add_mod pos maxSplitChunkSize
      have h2 := Nat.mod_lt pos hC
      simp only [maxSplitChunkSize] at *
      omega
  · intro h
    rw [splitCorpus_get]
    have hn : 0 < (splitCorpus size).length := by omega
    simp only [maxSplitChunkSize] at *
    omega

/-- Witness for C3 at the concrete corpus size 250000000 (three chunks). -/
theorem C3_witness : 0 < 250000000 ∧ splitChunksSpec 250000000 :=
  ⟨by decide, C3_splitCorpus_chunks 250000000 (by decide)⟩

theorem leBytes_length (n v : Nat) : (leBytes n v).length = n := by
  induction n generalizing v with
  | zero => rfl
  | succ n ih => simp [leBytes, ih]

theorem leDecode_leBytes (n v : Nat) : leDecode (leBytes n v) = v % 256 ^ n := by
  induction n generalizing v with
  | zero => simp [leBytes, leDecode, Nat.mod_one]
  | succ n ih =>
    rw [leBytes, leDecode, ih, Nat.pow_succ']
    exact (Nat.mod_mul).symm

theorem emod_two_pow_toNat_lt (x : Int) : (x % (2 : Int) ^ 64).toNat < 2 ^ 64 := by
  have h1 : 0 ≤ x % (2 : Int) ^ 64 := Int.emod_nonneg x (by positivity)
  have h2 : x % (2 : Int) ^ 64 < (2 : Int) ^ 64 := Int.emod_lt_of_pos x (by positivity)
  omega

/-- C4: for every pair of offsets the descriptor content is exactly 16
bytes; bytes 0-7 are fromIdx as a little-endian uint64 and bytes 8-15 are
toIdx as a little-endian uint64 (uint64 conversion being reduction mod
2^64). -/
theorem C4_createSubcorpus_bytes (fromIdx toIdx : Int) :
    (createSubcorpusBytes fromIdx toIdx).length = 16 ∧
    leDecode ((createSubcorpusBytes fromIdx toIdx).take 8) =
      (fromIdx % (2 : Int) ^ 64).toNat ∧
    leDecode ((createSubcorpusBytes fromIdx toIdx).drop 8) =
      (toIdx % (2 : Int) ^ 64).toNat := by
  have hlf : (leBytes 8 (fromIdx % (2 : Int) ^ 64).toNat).length = 8 := leBytes_length 8 _
  have hlt : (leBytes 8 (toIdx % (2 : Int) ^ 64).toNat).length = 8 := leBytes_length 8 _
  refine ⟨?_, ?_, ?_⟩
  · rw [createSubcorpusBytes, List.length_append, hlf, hlt]
  · rw [createSubcorpusBytes, List.take_left' hlf, leDecode_leBytes]
    have := emod_two_pow_toNat_lt fromIdx
    exact Nat.mod_eq_of_lt (by norm_num at this ⊢; omega)
  · rw [createSubcorpusBytes, List.drop_left' hlf, leDecode_leBytes]
    have := emod_two_pow_toNat_lt toIdx
    exact Nat.mod_eq_of_lt (by norm_num at this ⊢; omega)

/-- C9: whenever the engine signals its distinguished error code 1
together with a non-nil error, both concordance calls return the
sentinel rowsRangeOutOfConc; for every other non-nil engine error they
return the generic descriptive error built from the engine string. -/
theorem C9_concordance_error_mapping (ans : ConcRawAnswer) (msg : String)
    (herr : ans.err = some msg) : concErrMappingSpec ans msg := by
  constructor
  · intro hcode
    constructor <;> simp [GetConcordance, GetConcordanceWithCollPhrase, herr, hcode]
  · intro hcode
    constructor <;> simp [GetConcordance, GetConcordanceWithCollPhrase, herr, hcode]

/-- Witness for C9 at concrete engine answers with code 1 and code 0. -/
theorem C9_witness :
    (ConcRawAnswer.mk (some ("range error")) 1 0 0 []).err = some ("range error") ∧
    concErrMappingSpec (ConcRawAnswer.mk (some ("range error")) 1 0 0 []) ("range error") ∧
    (ConcRawAnswer.mk (some ("engine broke")) 0 0 0 []).err = some ("engine broke") ∧
    concErrMappingSpec (ConcRawAnswer.mk (some ("engine broke")) 0 0 0 []) ("engine broke") :=
  ⟨rfl, C9_concordance_error_mapping _ _ rfl, rfl, C9_concordance_error_mapping _ _ rfl⟩

theorem findEntry_setEntry_self (t : CounterTable) (k : String) (it : CTItem) :
    (t.setEntry k it).findEntry k = some it := by
  induction t with
  | nil => simp [CounterTable.setEntry, CounterTable.findEntry]
  | cons hd tl ih =>
    obtain ⟨k', it'⟩ := hd
    by_cases h : k' = k <;>
      simp [CounterTable.setEntry, CounterTable.findEntry, h, ih]

theorem findEntry_setEntry_ne (t : CounterTable) (k k' : String) (it : CTItem)
    (h : k' ≠ k) : (t.setEntry k it).findEntry k' = t.findEntry k' := by
  have h' : ¬ k = k' := fun e => h e.symm
  induction t with
  | nil => simp [CounterTable.setEntry, CounterTable.findEntry, h']
  | cons hd tl ih =>
    obtain ⟨k'', it''⟩ := hd
    by_cases hk : k'' = k
    · subst hk
      simp [CounterTable.setEntry, CounterTable.findEntry, h']
    · simp [CounterTable.setEntry, CounterTable.findEntry, hk, ih]

theorem setEntry_setEntry_same (t : CounterTable) (k : String) (a b : CTItem) :
    (t.setEntry k a).setEntry k b = t.setEntry k b := by
  induction t with
  | nil => simp [CounterTable.setEntry]
  | cons hd tl ih =>
    obtain ⟨k', it'⟩ := hd
    by_cases h : k' = k <;> simp [CounterTable.setEntry, h, ih]

/-- C10 (amended): Add distinguishes tuples only through their joined
string key; on the level of looked-up keys it creates the missing entry
with Freq = val and the attribute fields of the tuple, increments only the
Freq of an existing entry, leaves every other key untouched, and two
Adds on the same tuple commute with their values summing. -/
theorem C10_add_updates_exactly_one_key
    (table : CounterTable) (lem upos pLemma pUpos deprel : String) (v : Int) :
    addSpec table lem upos pLemma pUpos deprel v := by
  refine ⟨?_, ?_, ?_, ?_, ?_⟩
  · intro hnone
    simp only [CounterTable.Add, hnone]
    exact findEntry_setEntry_self ..
  · intro it hsome
    simp only [CounterTable.Add, hsome]
    exact findEntry_setEntry_self ..
  · intro k hk
    cases hfind : table.findEntry (mkKey lem upos pLemma pUpos deprel) with
    | none =>
      simp only [CounterTable.Add, hfind]
      exact findEntry_setEntry_ne _ _ _ _ hk
    | some it =>
      simp only [CounterTable.Add, hfind]
      exact findEntry_setEntry_ne _ _ _ _ hk
  · intro w
    cases hfind : table.findEntry (mkKey lem upos pLemma pUpos deprel) with
    | none =>
      simp only [CounterTable.Add, hfind, findEntry_setEntry_self,
        setEntry_setEntry_same]
      rw [Int.add_comm v w]
    | some it =>
      simp only [CounterTable.Add, hfind, findEntry_setEntry_self,
        setEntry_setEntry_same]
      rw [Int.add_right_comm]
  · intro w hnone
    simp only [CounterTable.Add, hnone, findEntry_setEntry_self,
      setEntry_setEntry_same]

/-- Witness for C10 on a collision-free tuple. -/
theorem C10_witness : addSpec [] ("run") ("VERB") ("dog") ("NOUN") ("obj") 2 :=
  C10_add_updates_exactly_one_key [] ("run") ("VERB") ("dog") ("NOUN") ("obj") 2

/-- Counterexample for C10 as stated: the colon-joined key identifies
the tuples ("a:b","c","p","q","d") and ("a","b:c","p","q","d"), so the
second Add increments the entry of the first tuple (Freq 1 becomes 2,
with the attribute fields of the first tuple) instead of creating a separate
entry and leaving the other tuple unchanged. -/
theorem C10_counterexample :
    mkKey ("a:b") ("c") ("p") ("q") ("d") = mkKey ("a") ("b:c") ("p") ("q") ("d") ∧
    (CounterTable.Add [] ("a:b") ("c") ("p") ("q") ("d") 1).findEntry
        (mkKey ("a:b") ("c") ("p") ("q") ("d")) =
      some { Lemma := "a:b", PLemma := "p", Deprel := "d", Upos := "c",
             PUpos := "q", Freq := 1 } ∧
    ((CounterTable.Add [] ("a:b") ("c") ("p") ("q") ("d") 1).Add
        ("a") ("b:c") ("p") ("q") ("d") 1).findEntry (mkKey ("a:b") ("c") ("p") ("q") ("d")) =
      some { Lemma := "a:b", PLemma := "p", Deprel := "d", Upos := "c",
             PUpos := "q", Freq := 2 } := by
  decide

/-- C1 (evaluating the code at the failing input): the barrier of the
parallel endpoints only reaches zero when every publication succeeded;
with three shards and the middle publication failing, the WaitGroup
counter stays at 1 after all activity, so wg.Wait() never returns and
the handler never responds - the slot of the failed shard is not released. -/
theorem C1_publish_failure_leaks_barrier :
    (∀ pubs : List Bool, wgWaitReturns pubs ↔ pubs.count true = pubs.length) ∧
    finalBarrierCount [true, false, true] = 1 ∧
    ¬ wgWaitReturns [true, false, true] := by
  refine ⟨?_, rfl, ?_⟩
  · intro pubs
    unfold wgWaitReturns finalBarrierCount
    have := List.count_le_length true pubs
    omega
  · unfold wgWaitReturns finalBarrierCount
    decide

/-- C2 (evaluating the code at the failing input): with a single merged
item the final reslicing panics both with the default cap (maxItems
absent, cut = 100) and with an explicit cap larger than the list,
modelled as none; when the cap does not exceed the length the list is
capped to the top entries. -/
theorem C2_truncate_panics_on_short_list :
    truncateStep [{ Word := "cat", Freq := 6, Norm := 0 }] 0 = none ∧
    truncateStep [{ Word := "cat", Freq := 6, Norm := 0 }] 2 = none ∧
    truncateStep [{ Word := "cat", Freq := 6, Norm := 0 },
                  { Word := "bird", Freq := 4, Norm := 0 },
                  { Word := "dog", Freq := 2, Norm := 0 }] 2 =
      some [{ Word := "cat", Freq := 6, Norm := 0 },
            { Word := "bird", Freq := 4, Norm := 0 }] := by
  decide

/-- C5: with an existing non-empty shard directory both SplitCorpus and
MultiSample answer conflict before creating or dispatching anything, so
no existing descriptor file is overwritten. -/
theorem C5_existing_shard_set_conflicts (st : ShardDirState)
    (h : corpusShardSetExists st = true) : conflictGuardSpec st := by
  constructor
  · intro size
    simp [SplitCorpusAction, h]
  · intro ns
    simp [MultiSampleAction, h]

/-- Witness for C5 at a directory with three entries. -/
theorem C5_witness :
    corpusShardSetExists { isDir := true, numEntries := 3 } = true ∧
    conflictGuardSpec { isDir := true, numEntries := 3 } :=
  ⟨by decide, C5_existing_shard_set_conflicts _ (by decide)⟩

/-- Counterexample for C6 as stated: a decode or worker failure does
not leave the accumulator unchanged - the zero-valued result is merged
anyway, and the corpusSize metadata is overwritten by its zero. -/
theorem C6_counterexample :
    gatherStep { ConcSize := 10, CorpusSize := 1000, SubcSize := 500,
                 Freqs := [{ Word := "cat", Freq := 5, Norm := 7 }] } none ≠
      { ConcSize := 10, CorpusSize := 1000, SubcSize := 500,
        Freqs := [{ Word := "cat", Freq := 5, Norm := 7 }] } := by
  decide

/-- C6 (amended): on a decode or worker error the failure is only
logged and the zero-valued result is still merged; this leaves the
accumulated item list, concSize and subcSize unchanged - so the
remaining shard contributions survive and the gather completes - but
the corpusSize field is clobbered with the zero value. -/
theorem C6_failed_shard_merges_zero_value (acc : FreqDistrib) :
    gatherStep acc none = { acc with CorpusSize := 0 } := by
  simp [gatherStep, FreqDistrib.MergeWith, FreqDistrib.zero]

/-- Counterexample for C7 as stated: with the split corpus failing to
open, a TextTypesParallel request whose flimit parameter is not a
parseable integer is answered with StatusInternalServerError, not with
an unprocessable-entity error - the handler opens the split corpus
before validating flimit (no job is published either way). -/
theorem C7_counterexample :
    goAtoi ("abc") = none ∧
    (TextTypesParallelHandler none (some ("abc")) none).status ≠
      RespStatus.unprocessableEntity ∧
    TextTypesParallelHandler none (some ("abc")) none =
      { status := .internalServerError, jobsPublished := 0 } := by
  decide

/-- C7 (amended): an unparseable flimit (or maxItems) parameter is
answered with unprocessable-entity before any job is published in
FreqDistrib and TextTypes unconditionally, and in TextTypesParallel
whenever the split corpus opened; in every TextTypesParallel case no
job reaches the broker. -/
theorem C7_bad_limit_rejected_before_publish (s : String)
    (h : goAtoi s = none) : badLimitSpec s := by
  refine ⟨?_, ?_, ?_, ?_, ?_, ?_, ?_⟩
  · intro pub
    simp [FreqDistribHandler, h]
  · intro pub
    simp [TextTypesHandler, h]
  · intro subs maxP
    simp [TextTypesParallelHandler, h]
  · intro subs
    simp [TextTypesParallelHandler, ttpAfterFlimit, h]
  · intro subs t v ht
    simp [TextTypesParallelHandler, ttpAfterFlimit, ht, h]
  · intro openR maxP
    cases openR with
    | none => rfl
    | some subs => simp [TextTypesParallelHandler, h]
  · intro openR flimP
    cases openR with
    | none => rfl
    | some subs =>
      cases flimP with
      | none => simp [TextTypesParallelHandler, ttpAfterFlimit, h]
      | some t =>
        cases ht : goAtoi t with
        | none => simp [TextTypesParallelHandler, ht]
        | some v => simp [TextTypesParallelHandler, ttpAfterFlimit, ht, h]

/-- Witness for C7 at the concrete unparseable parameter "abc". -/
theorem C7_witness : goAtoi ("abc") = none ∧ badLimitSpec ("abc") :=
  ⟨by decide, C7_bad_limit_rejected_before_publish ("abc") (by decide)⟩

theorem leFreqDesc_trans (a b c : FreqDistribItem)
    (h1 : leFreqDesc a b) (h2 : leFreqDesc b c) : leFreqDesc a c := by
  simp only [leFreqDesc, decide_eq_true_eq] at *
  omega

theorem leFreqDesc_total (a b : FreqDistribItem) :
    leFreqDesc a b || leFreqDesc b a := by
  simp only [leFreqDesc, Bool.or_eq_true, decide_eq_true_eq]
  exact Int.le_total b.Freq a.Freq

theorem sortStep_filter_eq (l : List FreqDistribItem) (f : Int) :
    (sortStep l).filter (fun it => it.Freq == f) =
      l.filter (fun it => it.Freq == f) := by
  have hpw : (l.filter (fun it => it.Freq == f)).Pairwise (fun a b => leFreqDesc a b) := by
    apply List.pairwise_of_forall_mem_list
    intro a ha b hb
    rw [List.mem_filter] at ha hb
    have ha' : a.Freq = f := by simpa using ha.2
    have hb' : b.Freq = f := by simpa using hb.2
    simp [leFreqDesc, ha', hb']
  have hsub : List.Sublist (l.filter (fun it => it.Freq == f)) (sortStep l) :=
    List.sublist_mergeSort leFreqDesc_trans leFreqDesc_total hpw
      (List.filter_sublist l)
  have hself : (l.filter (fun it => it.Freq == f)).filter (fun it => it.Freq == f) =
      l.filter (fun it => it.Freq == f) := by
    apply List.filter_eq_self.mpr
    intro a ha
    exact (List.mem_filter.mp ha).2
  have hsub2 : List.Sublist (l.filter (fun it => it.Freq == f))
      ((sortStep l).filter (fun it => it.Freq == f)) := by
    have := hsub.filter (fun it => it.Freq == f)
    rwa [hself] at this
  have hlen : ((sortStep l).filter (fun it => it.Freq == f)).length =
      (l.filter (fun it => it.Freq == f)).length :=
    ((List.mergeSort_perm l leFreqDesc).filter _).length_eq
  exact (hsub2.eq_of_length hlen.symm).symm

/-- C8 (amended): the merged items are sorted stably in descending
frequency order (equal-frequency items keep their pre-sort relative
order); whenever the cap is positive and does not exceed the item
count, truncation keeps exactly the top maxItems entries (a larger cap
panics, see the C2 result); on the example items cat:6, bird:4, dog:2
with maxItems 2 the result is exactly cat:6, bird:4. -/
theorem C8_sort_and_truncate :
    (∀ (l : List FreqDistribItem) (m : Nat), sortTruncSpec l m) ∧
    sortAndTruncate
        [{ Word := "cat", Freq := 6, Norm := 0 },
         { Word := "bird", Freq := 4, Norm := 0 },
         { Word := "dog", Freq := 2, Norm := 0 }] 2 =
      some [{ Word := "cat", Freq := 6, Norm := 0 },
            { Word := "bird", Freq := 4, Norm := 0 }] := by
  constructor
  · intro l m
    refine ⟨?_, ?_, ?_, ?_⟩
    · exact (List.sorted_mergeSort leFreqDesc_trans leFreqDesc_total l).imp
        (fun h => by simpa [leFreqDesc] using h)
    · exact List.mergeSort_perm l leFreqDesc
    · exact fun f => sortStep_filter_eq l f
    · intro h1 h2
      have hm : ¬ m = 0 := by omega
      have hlen : m ≤ (sortStep l).length := by
        rw [sortStep, List.length_mergeSort]
        exact h2
      simp [sortAndTruncate, truncateStep, hm, hlen]
  · have hsorted : sortStep
        [{ Word := "cat", Freq := 6, Norm := 0 },
         { Word := "bird", Freq := 4, Norm := 0 },
         { Word := "dog", Freq := 2, Norm := 0 }] =
        [{ Word := "cat", Freq := 6, Norm := 0 },
         { Word := "bird", Freq := 4, Norm := 0 },
         { Word := "dog", Freq := 2, Norm := 0 }] := by
      apply List.mergeSort_of_sorted
      decide
    rw [sortAndTruncate, hsorted]
    decide

/-- Witness for C8 at the example items and cap 2. -/
theorem C8_witness :
    0 < 2 ∧
    2 ≤ ([{ Word := "cat", Freq := 6, Norm := 0 },
          { Word := "bird", Freq := 4, Norm := 0 },
          { Word := "dog", Freq := 2, Norm := 0 }] : List FreqDistribItem).length ∧
    sortTruncSpec
      [{ Word := "cat", Freq := 6, Norm := 0 },
       { Word := "bird", Freq := 4, Norm := 0 },
       { Word := "dog", Freq := 2, Norm := 0 }] 2 :=
  ⟨by decide, by decide, C8_sort_and_truncate.1 _ _⟩

/-- Counterexample for C8 as stated: with a single merged item and
maxItems 2 the capping step does not return the top entries - the
reslicing panics (modelled as none). -/
theorem C8_counterexample :
    sortAndTruncate [{ Word := "cat", Freq := 6, Norm := 0 }] 2 = none := by
  rw [sortAndTruncate, sortStep, List.mergeSort_singleton]
  decide

end Mquery
